import Mathlib

/-!
Verification development for the replay/caching adapter in
`celery/utils/functional.py`: the `_regen` class (ReplayableSequence),
the `mlazy` class (MemoizedValue), `evaluate_promises`, `first`, and the
`regen` wrap-or-pass-through constructor.

The single-pass source wrapped by `_regen` is embedded as the list of its
not-yet-pulled elements: pulling `next(it)` removes the head.  Every
stateful Python method becomes a Lean function returning a result paired
with the updated object state.
-/

set_option autoImplicit false

namespace CeleryFunctional

/--
State of a `_regen` object (class `_regen` in `celery/utils/functional.py`):
`consumed` is `self.__consumed` (the cache buffer), `index` is
`self.__index` (set to 0 in `__init__` and never written again anywhere in
the class), and `it` is the remaining, not-yet-pulled tail of `self.__it`.
-/
structure Regen (α : Type) where
  consumed : List α
  index : Nat
  it : List α
  deriving Repr, DecidableEq

/-- `_regen.__init__`: empty cache, zero index, the source iterator. -/
def Regen.init {α : Type} (src : List α) : Regen α :=
  ⟨[], 0, src⟩

/--
`_regen.__iter__` returns `chain(self.__consumed, self.__it)`.  Running
that chain iterator to completion yields the cached elements followed by
every remaining source element; the pulls drain `self.__it` but append
nothing to `self.__consumed` (the chain reads the iterator directly).
-/
def Regen.iterateAll {α : Type} (r : Regen α) : List α × Regen α :=
  (r.consumed ++ r.it, ⟨r.consumed, r.index, []⟩)

/--
The pull loop `for i in range(self.__index, index + 1):
self.__consumed.append(next(self.__it))` in `_regen.__getitem__`, given
the number of iterations the range produces.  Each iteration pulls one
element and appends it to the cache; a pull from an exhausted source
raises `StopIteration` (the `false` outcome), with the earlier appends
kept.
-/
def Regen.pullN {α : Type} : Regen α → Nat → Bool × Regen α
  | r, 0 => (true, r)
  | r, Nat.succ k =>
    match r.it with
    | [] => (false, r)
    | x :: rest => Regen.pullN ⟨r.consumed ++ [x], r.index, rest⟩ k

/--
`_regen.__getitem__` for a non-negative index: try `self.__consumed[index]`;
on `IndexError` run the pull loop for `index + 1 - self.__index` iterations
(`range(self.__index, index + 1)`), re-raising `StopIteration` as
`IndexError` (`none`), otherwise return `self.__consumed[index]`.
-/
def Regen.getItem {α : Type} (r : Regen α) (i : Nat) : Option α × Regen α :=
  match r.consumed[i]? with
  | some v => (some v, r)
  | none =>
    let s := r.pullN (i + 1 - r.index)
    if s.1 then (s.2.consumed[i]?, s.2) else (none, s.2)

/--
The `data` property of `_regen`:
`self.__consumed.extend(list(self.__it))` drains every remaining source
element into the cache, then the cache is returned.
-/
def Regen.data {α : Type} (r : Regen α) : List α × Regen α :=
  (r.consumed ++ r.it, ⟨r.consumed ++ r.it, r.index, []⟩)

/--
`_regen.__getitem__` on an arbitrary integer index: `if index < 0: return
self.data[index]` (full drain, then Python negative indexing from the end,
`IndexError` when the offset falls before the start); otherwise the
non-negative path `Regen.getItem`.
-/
def Regen.getItemI {α : Type} (r : Regen α) (i : Int) : Option α × Regen α :=
  if i < 0 then
    let s := r.data
    if (s.1.length : Int) + i < 0 then (none, s.2)
    else (s.1[((s.1.length : Int) + i).toNat]?, s.2)
  else
    r.getItem i.toNat

/--
`_regen.__reduce__` returns `(list, (self.data,))`: the pickled form is the
plain list built from the `data` property, so serialization itself forces
the full drain and records the drained buffer.
-/
def Regen.reduceRepr {α : Type} (r : Regen α) : List α × Regen α :=
  r.data

/--
Scanning a concrete segment of the chained iteration used by `first`:
`next((v for v in it if predicate(v)), None)` — return the first element
satisfying the predicate together with the elements left unread after the
short-circuit, or `none` with everything read.
-/
def scanList {α : Type} (p : α → Bool) : List α → Option α × List α
  | [] => (none, [])
  | x :: xs => if p x then (some x, xs) else scanList p xs

/--
`first(predicate, r)` applied to a `_regen` object whose elements are plain
values (no promises, so `evaluate_promises` passes each element through
unchanged): the generator expression reads `chain(self.__consumed,
self.__it)` and stops at the first match, so the cached elements are
scanned first without touching the source, and only if none matches are
fresh elements pulled — and, through the chain, those pulls bypass the
cache.
-/
def Regen.firstScan {α : Type} (p : α → Bool) (r : Regen α) :
    Option α × Regen α :=
  match (scanList p r.consumed).1 with
  | some v => (some v, r)
  | none =>
    let s := scanList p r.it
    (s.1, { r with it := s.2 })

/--
One operation of the `_regen` interface exercised by the spec: a full
`__iter__` traversal, `__getitem__`, the `data` property (materialize), or
a `first` scan.
-/
inductive Op (α : Type) where
  | iter : Op α
  | index : Int → Op α
  | materialize : Op α
  | first : (α → Bool) → Op α

/-- Run one operation, keeping only the updated object state. -/
def Regen.exec {α : Type} (r : Regen α) : Op α → Regen α
  | Op.iter => (r.iterateAll).2
  | Op.index i => (r.getItemI i).2
  | Op.materialize => (r.data).2
  | Op.first p => (r.firstScan p).2

/-- Run a sequence of operations from left to right. -/
def Regen.execAll {α : Type} (r : Regen α) : List (Op α) → Regen α
  | [] => r
  | op :: ops => (r.exec op).execAll ops

/--
The cache invariant claimed for ReplayableSequence: the buffer holds, in
order, exactly the elements pulled from the source so far (the pull count
is the source length minus the untouched tail length).
-/
def cacheInvariant {α : Type} (src : List α) (r : Regen α) : Prop :=
  r.consumed = src.take (src.length - r.it.length)

instance {α : Type} [DecidableEq α] (src : List α) (r : Regen α) :
    Decidable (cacheInvariant src r) := by
  unfold cacheInvariant
  infer_instance

/--
State of an `mlazy` object.  `comp` is the wrapped zero-argument
computation, given the number of previous invocations so that a run can
fail on one attempt and succeed on another (`Except.error` models a raised
exception); `calls` counts how many times the computation has been
invoked; `evaluated` and `value` are the `evaluated` flag and `_value`
attribute (`_value` starts as `None`, hence the `Option`).
-/
structure mlazy (E V : Type) where
  comp : Nat → Except E V
  calls : Nat
  evaluated : Bool
  value : Option V

/-- A fresh `mlazy`: `evaluated = False`, `_value = None`, never invoked. -/
def mlazy.init {E V : Type} (f : Nat → Except E V) : mlazy E V :=
  ⟨f, 0, false, none⟩

/--
`mlazy.evaluate`: if not yet evaluated, invoke the computation
(`self._value = super().evaluate()`); a raised exception propagates before
`self._value` or `self.evaluated` is written, while on success the value is
stored, the flag set, and the value returned.  If already evaluated,
return `self._value` without invoking the computation.
-/
def mlazy.evaluate {E V : Type} (m : mlazy E V) : Except E (Option V) × mlazy E V :=
  if m.evaluated then (Except.ok m.value, m)
  else
    match m.comp m.calls with
    | Except.error e => (Except.error e, { m with calls := m.calls + 1 })
    | Except.ok v =>
      (Except.ok (some v),
       { m with calls := m.calls + 1, evaluated := true, value := some v })

/-- Call `evaluate` `k` times in sequence, collecting every result. -/
def mlazy.evalK {E V : Type} : mlazy E V → Nat → List (Except E (Option V)) × mlazy E V
  | m, 0 => ([], m)
  | m, Nat.succ k =>
    let s := m.evaluate
    let rest := s.2.evalK k
    (s.1 :: rest.1, rest.2)

/--
An element of a sequence scanned by `evaluate_promises`: either a plain
value or a promise whose invocation returns another element (possibly
itself a promise).
-/
inductive Elem (α : Type) where
  | plain : α → Elem α
  | prom : Elem α → Elem α
  deriving Repr, DecidableEq

/--
The loop body of `evaluate_promises`: `if isinstance(value, promise):
value = value()` — a promise is invoked once and replaced by its result;
anything else is left unchanged.
-/
def resolveOnce {α : Type} : Elem α → Elem α
  | Elem.prom e => e
  | Elem.plain v => Elem.plain v

/--
`evaluate_promises(it)`: yield every element of the input in order, each
passed through the loop body once.
-/
def evaluate_promises {α : Type} : List (Elem α) → List (Elem α)
  | [] => []
  | v :: rest => resolveOnce v :: evaluate_promises rest

/--
An iterable handed to `regen`: a Python `list`, a `tuple`, or any other
iterable (a generator, say) carrying the elements its iterator would
yield.
-/
inductive PyIterable (α : Type) where
  | list : List α → PyIterable α
  | tuple : List α → PyIterable α
  | gen : List α → PyIterable α
  deriving Repr, DecidableEq

/-- `isinstance(it, (list, tuple))`: the concrete, fixed-length sequences. -/
def PyIterable.isConcrete {α : Type} : PyIterable α → Bool
  | PyIterable.list _ => true
  | PyIterable.tuple _ => true
  | PyIterable.gen _ => false

/-- The elements the iterable produces, in order. -/
def PyIterable.elems {α : Type} : PyIterable α → List α
  | PyIterable.list l => l
  | PyIterable.tuple l => l
  | PyIterable.gen l => l

/-- Result of `regen`: the input passed through unchanged, or a `_regen`. -/
inductive RegenResult (α : Type) where
  | passthrough : PyIterable α → RegenResult α
  | wrapped : Regen α → RegenResult α
  deriving Repr, DecidableEq

/--
`regen(it)`: `if isinstance(it, (list, tuple)): return it`, otherwise
`return _regen(it)`.
-/
def regen {α : Type} : PyIterable α → RegenResult α
  | PyIterable.list l => RegenResult.passthrough (PyIterable.list l)
  | PyIterable.tuple l => RegenResult.passthrough (PyIterable.tuple l)
  | PyIterable.gen l => RegenResult.wrapped (Regen.init l)

/--
Claim C1: the claim says running `iterate()` to completion twice on a
fresh wrapper yields the full element sequence both times, each fresh pull
being appended to the cache.  The code's `__iter__` returns
`chain(self.__consumed, self.__it)`, which drains the source without
caching anything: on the two-element source `[1, 2]` the first traversal
yields `[1, 2]` but the second yields nothing at all.
-/
theorem c1_iterate_twice_code_bug :
    ((Regen.init ([1, 2] : List Nat)).iterateAll).1 = [1, 2] ∧
    ((((Regen.init ([1, 2] : List Nat)).iterateAll).2).iterateAll).1 = [] := by
  decide

/--
Claim C2: the claimed cache invariant — `consumed` holds, in order,
exactly the elements pulled from the source so far — fails in a state
reachable by a single full `iterate()`: on source `[1, 2]` both elements
have been pulled, yet the cache is still empty, because the chain returned
by `__iter__` bypasses the cache.
-/
theorem c2_cache_invariant_code_bug :
    ¬ cacheInvariant ([1, 2] : List Nat)
        (Regen.execAll (Regen.init [1, 2]) [Op.iter]) := by
  decide

/--
Claim C3: the claim says `index(i)` succeeds whenever `i < n`.  On the
five-element source `[1, 2, 3, 4, 5]`, `index(2)` succeeds with `3`, but a
following `index(3)` fails with `IndexError` even though element `4`
exists: `self.__index` is never advanced, so the pull loop runs
`index + 1` iterations instead of `index + 1 - cursor`, over-pulls, and
hits `StopIteration` before returning.
-/
theorem c3_getitem_code_bug :
    (((Regen.init ([1, 2, 3, 4, 5] : List Nat)).getItem 2).1 = some 3) ∧
    ((((Regen.init ([1, 2, 3, 4, 5] : List Nat)).getItem 2).2.getItem 3).1 = none) := by
  decide

/--
Claim C4: `first (3 < ·)` on a fresh wrapper of `1..6` returns `4`,
pulling only the four elements up to and including the match (the source
tail `[5, 6]` is untouched), and a subsequent `materialize()` on the same
wrapper pulls and returns `[5, 6]`.
-/
theorem c4_first_short_circuit :
    (((Regen.init ([1, 2, 3, 4, 5, 6] : List Nat)).firstScan
        (fun x => decide (3 < x))).1 = some 4) ∧
    (((Regen.init ([1, 2, 3, 4, 5, 6] : List Nat)).firstScan
        (fun x => decide (3 < x))).2.it = [5, 6]) ∧
    ((((Regen.init ([1, 2, 3, 4, 5, 6] : List Nat)).firstScan
        (fun x => decide (3 < x))).2.data).1 = [5, 6]) := by
  decide

/--
Claim C5: for a memoized value whose computation fails on the first
attempt and succeeds with `v` on the second, the first `evaluate()`
propagates the failure leaving the state unchanged (`evaluated` still
false, no value cached), and the second `evaluate()` re-runs the
computation, returns `v`, and only then sets the flag.
-/
theorem c5_retry_after_failure {E V : Type} (f : Nat → Except E V) (e : E) (v : V)
    (h0 : f 0 = Except.error e) (h1 : f 1 = Except.ok v) :
    ((mlazy.init f).evaluate).1 = Except.error e ∧
    ((mlazy.init f).evaluate).2.evaluated = false ∧
    ((mlazy.init f).evaluate).2.value = none ∧
    (((mlazy.init f).evaluate).2.evaluate).1 = Except.ok (some v) ∧
    (((mlazy.init f).evaluate).2.evaluate).2.evaluated = true := by
  simp [mlazy.init, mlazy.evaluate, h0, h1]

/-- A computation failing on its first attempt and succeeding on its second. -/
def failThenOk : Nat → Except String Nat :=
  fun n => if n = 0 then Except.error "boom" else Except.ok 7

/-- Witness for claim C5 at the concrete computation `failThenOk`. -/
theorem c5_retry_after_failure_witness :
    ((mlazy.init failThenOk).evaluate).1 = Except.error "boom" ∧
    ((mlazy.init failThenOk).evaluate).2.evaluated = false ∧
    ((mlazy.init failThenOk).evaluate).2.value = none ∧
    (((mlazy.init failThenOk).evaluate).2.evaluate).1 = Except.ok (some 7) ∧
    (((mlazy.init failThenOk).evaluate).2.evaluate).2.evaluated = true :=
  c5_retry_after_failure failThenOk "boom" 7 rfl rfl

/--
After a successful evaluation, every further `evaluate()` returns the
cached value and leaves the whole state (counter included) unchanged.
-/
theorem mlazy.evalK_evaluated {E V : Type} (m : mlazy E V)
    (h : m.evaluated = true) (k : Nat) :
    m.evalK k = (List.replicate k (Except.ok m.value), m) := by
  induction k with
  | zero => simp [mlazy.evalK]
  | succ k ih => simp [mlazy.evalK, mlazy.evaluate, h, ih, List.replicate_succ]

/--
Claim C6: once a memoized value has evaluated successfully, `k` further
`evaluate()` calls all return the cached value and never re-invoke the
computation: the invocation counter stays at exactly 1, for every `k`.
-/
theorem c6_memoized_once {E V : Type} (f : Nat → Except E V) (v : V)
    (h : f 0 = Except.ok v) (k : Nat) :
    (((mlazy.init f).evaluate).2.evalK k).1 =
      List.replicate k (Except.ok (some v)) ∧
    (((mlazy.init f).evaluate).2.evalK k).2.calls = 1 := by
  have hm : ((mlazy.init f).evaluate).2 = ⟨f, 1, true, some v⟩ := by
    simp [mlazy.init, mlazy.evaluate, h]
  rw [hm, mlazy.evalK_evaluated _ rfl k]
  exact ⟨rfl, rfl⟩

/-- A computation succeeding immediately with the value 5. -/
def alwaysOk : Nat → Except String Nat :=
  fun _ => Except.ok 5

/-- Witness for claim C6 at the concrete computation `alwaysOk`, k = 3. -/
theorem c6_memoized_once_witness :
    (((mlazy.init alwaysOk).evaluate).2.evalK 3).1 =
      List.replicate 3 (Except.ok (some 5)) ∧
    (((mlazy.init alwaysOk).evaluate).2.evalK 3).2.calls = 1 :=
  c6_memoized_once alwaysOk 5 rfl 3

/--
Claim C7: on a fresh wrapper of any source, a negative index forces the
full drain (`consumed` becomes the whole source, the tail is exhausted)
and then indexes from the end of the realized buffer, Python-style:
position `length + i`, out of range exactly when that offset is negative.
In particular `index(-1)` returns the last element.
-/
theorem c7_negative_index {α : Type} (src : List α) (i : Int) (h : i < 0) :
    ((Regen.init src).getItemI i).2.consumed = src ∧
    ((Regen.init src).getItemI i).2.it = [] ∧
    ((Regen.init src).getItemI i).1 =
      (if (src.length : Int) + i < 0 then none
       else src[((src.length : Int) + i).toNat]?) := by
  simp only [Regen.getItemI, Regen.data, Regen.init, if_pos h, List.nil_append]
  by_cases hc : (src.length : Int) + i < 0 <;> simp [hc]

/-- Witness for claim C7: `index(-1)` on a wrapper of `[10, 20, 30]`. -/
theorem c7_negative_index_witness :
    ((Regen.init ([10, 20, 30] : List Nat)).getItemI (-1)).2.consumed =
      [10, 20, 30] ∧
    ((Regen.init ([10, 20, 30] : List Nat)).getItemI (-1)).2.it = [] ∧
    ((Regen.init ([10, 20, 30] : List Nat)).getItemI (-1)).1 = some 30 := by
  have h := c7_negative_index ([10, 20, 30] : List Nat) (-1) (by decide)
  exact ⟨h.1, h.2.1, by rw [h.2.2]; decide⟩

/--
Claim C8: `regen` returns its input unchanged exactly when the input is a
concrete, fixed-length sequence (a `list` or `tuple`); any other iterable
is wrapped in a fresh `_regen` holding an empty cache, a zero cursor, and
the source.
-/
theorem c8_regen_passthrough {α : Type} (x : PyIterable α) :
    regen x = (if x.isConcrete then RegenResult.passthrough x
               else RegenResult.wrapped ⟨[], 0, x.elems⟩) := by
  cases x <;> rfl

/--
Claim C9: `__reduce__` serializes a `_regen` as the plain list built from
its `data` property: the drain happens inside the reduction itself (the
remaining tail is exhausted afterwards) and the serialized list equals the
fully drained buffer.
-/
theorem c9_reduce_materializes {α : Type} (r : Regen α) :
    (r.reduceRepr).1 = r.consumed ++ r.it ∧
    (r.reduceRepr).2.it = [] ∧
    (r.reduceRepr).1 = (r.reduceRepr).2.consumed :=
  ⟨rfl, rfl, rfl⟩

/--
Claim C10: `evaluate_promises` performs exactly one level of unwrapping
per element, in order: it maps each element through the single-step
resolver, which invokes a promise once and yields its result even when
that result is itself a promise, and leaves every plain element unchanged.
-/
theorem c10_evaluate_promises_one_level {α : Type} (l : List (Elem α)) :
    evaluate_promises l = l.map resolveOnce ∧
    (∀ e : Elem α, resolveOnce (Elem.prom e) = e) ∧
    (∀ v : α, resolveOnce (Elem.plain v) = Elem.plain v) := by
  refine ⟨?_, fun e => rfl, fun v => rfl⟩
  induction l with
  | nil => rfl
  | cons x xs ih => simp [evaluate_promises, ih]

end CeleryFunctional
